import Mathlib

/-!
Verification development for the ntp thread-pool library.

The definitions below are a shallow embedding of the relevant parts of the
C++ sources: machine integers are modelled as Nat or Int with explicit
reductions modulo powers of two where the code truncates, FILETIME is a pair
of 32-bit parts, the per-manager ownership map is an association list keyed
by the native handle, and functions that throw Win32 exceptions return the
error code through an explicit channel.
-/

namespace Ntp

/-! Win32 error codes used by the library (winerror.h values). -/

def ERROR_NOT_FOUND : Nat := 1168

/-! Time utilities, from `namespace ntp::time` (details/time.hpp). -/

/-- Structure FILETIME from the Windows headers: two 32-bit parts. The parts
are kept as natural numbers that the constructions below always take modulo
two to the thirty-second power, exactly where the code casts to DWORD. -/
structure FILETIME where
  dwLowDateTime : Nat
  dwHighDateTime : Nat
deriving DecidableEq, Repr

/-- Result of a C++ static_cast to DWORD applied to a signed 64-bit value:
the value modulo two to the thirty-second power. -/
def dwordCast (value : Int) : Nat :=
  (value % (4294967296 : Int)).toNat

/-- Count of the saturated maximum of the signed native duration type
(long long count of 100-ns quanta), the value of
`ntp::time::max_native_duration` in the newest time.hpp. -/
def max_native_duration : Int := 9223372036854775807

/-- Translation of `ntp::time::AsFileTime` (newest time.hpp, signed
long long representation): the 100-ns count is split into low and high
32-bit parts, the high part via an arithmetic shift right by 32, which for
a signed value is floor division. -/
def AsFileTime (native_count : Int) : FILETIME :=
  { dwLowDateTime := dwordCast native_count
    dwHighDateTime := dwordCast (native_count / (4294967296 : Int)) }

/-- Translation of `ntp::time::Negate` (newest time.hpp): only the low part
is replaced by the two-complement negation of itself; the high part of the
FILETIME is left untouched. -/
def Negate (time : FILETIME) : FILETIME :=
  { time with dwLowDateTime := dwordCast (-(time.dwLowDateTime : Int)) }

/-- Reading a FILETIME as one signed 64-bit 100-ns count: concatenate the
two parts and interpret the 64-bit pattern in two complement. -/
def FILETIME.asInt64 (time : FILETIME) : Int :=
  let unsignedValue : Nat := time.dwHighDateTime * 4294967296 + time.dwLowDateTime
  if unsignedValue < 9223372036854775808 then (unsignedValue : Int)
  else (unsignedValue : Int) - 18446744073709551616

/-- Translation of `ntp::time::AsFiletime` (include/details/time.hpp, where
`native_duration_t` has an unsigned long long representation): split the
unsigned 100-ns count into low and high 32-bit parts, the high part via a
logical shift right by 32. -/
def AsFiletime (native_count : Nat) : FILETIME :=
  { dwLowDateTime := native_count % 4294967296
    dwHighDateTime := (native_count / 4294967296) % 4294967296 }

/-- Reading a FILETIME as the unsigned 64-bit count it packs. -/
def FILETIME.asUInt64 (time : FILETIME) : Nat :=
  time.dwHighDateTime * 4294967296 + time.dwLowDateTime

/-- Model of `std::chrono::duration_cast<native_duration_t>` for a
nonnegative duration of `count` ticks whose tick equals `num / den` 100-ns
quanta (the reduced ratio between the source period and the native period):
the library multiplies by the ratio and divides with truncation, which for
nonnegative values is floor division. -/
def durationCastToNative (num den count : Nat) : Nat :=
  count * num / den

namespace wait

/-- Timeout computation of `WaitManager::Submit` (newest wait.hpp): the
member `wait_timeout` stays absent when the cast duration equals the
saturated maximum (infinite wait), and otherwise holds the FILETIME produced
by `AsFileTime` followed by `Negate`. -/
def WaitManager.SubmitTimeout (native_timeout : Int) : Option FILETIME :=
  if native_timeout = max_native_duration then none
  else some (Negate (AsFileTime native_timeout))

end wait

namespace timer

/-- Timeout computation of the deadline overload of `TimerManager::Submit`
(timer.hpp): `timeout := deadline - now` against the steady clock, clamped
to zero when negative, before delegating to the duration overload. Times
are counts of steady-clock ticks. -/
def TimerManager.SubmitDeadlineTimeout (deadline now : Int) : Int :=
  let timeout := deadline - now
  if timeout < 0 then 0 else timeout

end timer

namespace io

/-- Native calls the I/O manager can issue while closing an object. -/
inductive IoCall where
  | cancel_io
  | wait_for_callbacks
  | close_io
deriving DecidableEq, Repr

/-- Translation of `IoManager::CloseInternal` (io.cpp): a no-op on a null
native handle, otherwise wait for callbacks then close the native object.
The returned list is the sequence of native calls issued. -/
def IoManager.CloseInternal (native_handle : Option Nat) : List IoCall :=
  match native_handle with
  | none => []
  | some _ => [IoCall.wait_for_callbacks, IoCall.close_io]

/-- Translation of `IoManager::AbortInternal` (io.cpp): a no-op on a null
native handle, otherwise cancel the pending I/O first and then run the
normal close sequence. -/
def IoManager.AbortInternal (native_handle : Option Nat) : List IoCall :=
  match native_handle with
  | none => []
  | some _ => IoCall.cancel_io :: IoManager.CloseInternal native_handle

/-- Packed completion datum built by `IoManager::InvokeCallback` (io.cpp)
from the values the dispatcher reported. -/
structure IoData where
  overlapped : Nat
  result : Nat
  bytes_transferred : Nat
deriving DecidableEq, Repr

/-- Translation of `IoCallback::CallImpl` (io.hpp): the list of argument
values std::apply hands to the user callable. When the callable accepts the
worker-instance handle, the branch prepends the instance and the three
completion values to the captured arguments; otherwise the source applies
the callable to `Arguments()` alone, leaving the tuple built from the
completion datum unused. -/
def IoCallback.CallImpl (accepts_instance : Bool) (instance_handle : Nat)
    (io_data : IoData) (captured : List Nat) : List Nat :=
  if accepts_instance then
    instance_handle :: io_data.overlapped :: io_data.result ::
      io_data.bytes_transferred :: captured
  else
    captured

/-- Translation of `IoManager::InvokeCallback` (io.cpp): pack the values the
dispatcher reported into an IoData and invoke the wrapper with it. -/
def IoManager.InvokeCallback (accepts_instance : Bool) (instance_handle : Nat)
    (overlapped result bytes_transferred : Nat) (captured : List Nat) : List Nat :=
  IoCallback.CallImpl accepts_instance instance_handle
    { overlapped := overlapped, result := result, bytes_transferred := bytes_transferred }
    captured

end io

namespace details

/-- Translation of `ntp::details::HardwareThreads` (threadpool.cpp): the
logical CPU count with fallback 4 when unavailable (reported as zero),
multiplied by 4 below eight CPUs and by 2 otherwise. -/
def HardwareThreads (hardware_concurrency : Nat) : Nat :=
  let threads := if hardware_concurrency = 0 then 4 else hardware_concurrency
  if threads < 8 then threads * 4 else threads * 2

/-- Translation of the thread-band normalization in the constructor
`CustomThreadPoolTraits::CustomThreadPoolTraits` (threadpool.cpp), returning
the pair of the minimum and maximum passed to the dispatcher. -/
def CustomThreadPoolTraits (hardware_concurrency min_threads max_threads : Nat) :
    Nat × Nat :=
  let min1 := if min_threads = 0 then 1 else min_threads
  let max1 := if max_threads ≠ 0 ∧ min1 ≤ max_threads then max_threads
              else HardwareThreads hardware_concurrency
  let max2 := if min1 ≤ max1 then max1 else min1
  (min1, max2)

end details

/-! Ownership map and the map-based manager skeleton. The concrete code is
`ntp::wait::details::Manager` (wait.cpp / wait.hpp); the Timer and I/O
managers share the same protocol through the generic base described in
section 4.5 of the specification. -/

namespace details

/-- Lookup in the ownership map (std::map find keyed by the native
handle). -/
def findCallback {α : Type} (callbacks : List (Nat × α)) (handle : Nat) : Option α :=
  match callbacks with
  | [] => none
  | (key, value) :: rest =>
      if key = handle then some value else findCallback rest handle

/-- Erasure of one slot from the ownership map (std::map erase of the
iterator positioned at the handle). -/
def eraseCallback {α : Type} (callbacks : List (Nat × α)) (handle : Nat) : List (Nat × α) :=
  match callbacks with
  | [] => []
  | (key, value) :: rest =>
      if key = handle then rest else (key, value) :: eraseCallback rest handle

/-- State of a map-based manager: the ownership map `callbacks_` and the
atomic boolean carried by `RemovalPermission` (true means removal is
allowed; `lock` stores false, `unlock` stores true). -/
structure ManagerState (α : Type) where
  callbacks : List (Nat × α)
  can_remove : Bool
deriving DecidableEq, Repr

/-- Type-erased callback wrapper: the decayed copy of the user callable and
of its captured arguments, both abstracted as tags. -/
structure CallbackWrapper where
  functor : Nat
  arguments : List Nat
deriving DecidableEq, Repr

/-- Context owned by one slot of the ownership map: the object-specific
parameters together with the unique-ownership handle to the current
callback wrapper. -/
structure ManagedContext (β : Type) where
  object_context : β
  callback : CallbackWrapper
deriving DecidableEq, Repr

namespace Manager

/-- Translation of `Manager::Cancel` (wait.cpp): under the writer lock, look
the handle up; when present close the native object (external effect) and
erase the slot, otherwise do nothing. The function is noexcept and reports
no error in either branch; the second component is the reported Win32 error
code channel, which therefore always carries none. -/
def Cancel {α : Type} (state : ManagerState α) (handle : Nat) :
    ManagerState α × Option Nat :=
  match findCallback state.callbacks handle with
  | some _ => ({ state with callbacks := eraseCallback state.callbacks handle }, none)
  | none => (state, none)

/-- Manager state observed while the loop of `Manager::CancelAll` (wait.cpp)
runs: the writer lock and the removal ban are held, so the removal
permission flag reads forbidden. -/
def CancelAllIterating {α : Type} (state : ManagerState α) : ManagerState α :=
  { state with can_remove := false }

/-- Translation of `Manager::CancelAll` (wait.cpp) as observed after it
returns: every handle has been closed, the map has been cleared, and the
removal ban has been released again (the flag stores true on unlock). -/
def CancelAll {α : Type} (state : ManagerState α) : ManagerState α :=
  { CancelAllIterating state with callbacks := [], can_remove := true }

/-- Translation of `Manager::Remove` (wait.cpp), the completion-path
removal: under the writer lock, erase the slot the iterator points at when
the removal permission flag reads allowed, and leave the map untouched
otherwise. -/
def Remove {α : Type} (state : ManagerState α) (handle : Nat) : ManagerState α :=
  if state.can_remove then
    { state with callbacks := eraseCallback state.callbacks handle }
  else
    state

end Manager

/-- Outcome of a replacement call: the manager state after the call, the
thrown error code or the returned handle, and the object parameters passed
to the re-arming `SubmitInternal` call (none when the call threw before
re-arming). -/
structure ReplaceOutcome (β : Type) where
  state : ManagerState (ManagedContext β)
  result : Except Nat Nat
  armed : Option β
deriving Repr

/-- Overwrite of the callback wrapper held by the slot at `handle`
(`context->callback = std::make_unique<...>` through the pointer obtained
from the lookup): the slot keeps its key and its object parameters, only
the wrapper changes. -/
def setCallbackWrapper {β : Type} (callbacks : List (Nat × ManagedContext β))
    (handle : Nat) (wrapper : CallbackWrapper) : List (Nat × ManagedContext β) :=
  match callbacks with
  | [] => []
  | (key, context) :: rest =>
      if key = handle then (key, { context with callback := wrapper }) :: rest
      else (key, context) :: setCallbackWrapper rest handle wrapper

/-- Shared body of `WaitManager::Replace` / `TimerManager::Replace` with
their `ReplaceUnsafe` helpers (wait.hpp, timer.hpp): look the handle up and
throw ERROR_NOT_FOUND when absent; otherwise quiesce the native object
(external effect), overwrite the callback wrapper of the located context
with a fresh wrapper around the new callable and arguments, re-arm through
`SubmitInternal` with the unchanged object parameters, and return the same
handle. -/
def ManagerEx.Replace {β : Type} (state : ManagerState (ManagedContext β))
    (handle : Nat) (functor2 : Nat) (args2 : List Nat) : ReplaceOutcome β :=
  match findCallback state.callbacks handle with
  | none => { state := state, result := Except.error ERROR_NOT_FOUND, armed := none }
  | some context =>
      { state :=
          { state with
            callbacks :=
              setCallbackWrapper state.callbacks handle
                { functor := functor2, arguments := args2 } }
        result := Except.ok handle
        armed := some context.object_context }

end details

namespace wait

/-- Object-specific parameters of a wait context (wait.hpp `WaitContext`):
the stored optional FILETIME timeout and the awaited handle. -/
structure WaitContext where
  wait_timeout : Option FILETIME
  wait_handle : Nat
deriving DecidableEq, Repr

/-- Translation of `WaitManager::Replace` (wait.hpp). -/
def WaitManager.Replace :
    details.ManagerState (details.ManagedContext WaitContext) → Nat → Nat → List Nat →
    details.ReplaceOutcome WaitContext :=
  details.ManagerEx.Replace

end wait

namespace timer

/-- Object-specific parameters of a timer context (timer.hpp
`TimerContext`): the FILETIME of the first trigger and the period in
milliseconds (zero means one-shot). -/
structure TimerContext where
  timer_timeout : FILETIME
  timer_period : Nat
deriving DecidableEq, Repr

/-- Translation of `TimerManager::Replace` (timer.hpp). -/
def TimerManager.Replace :
    details.ManagerState (details.ManagedContext TimerContext) → Nat → Nat → List Nat →
    details.ReplaceOutcome TimerContext :=
  details.ManagerEx.Replace

end timer

namespace work

/-- Polling loop of `WorkManager::WaitAll` (work.cpp). The first argument
gives the value of the cancel predicate at each timeout poll; `remaining`
counts the polls left until the done event is observed set by the waiter
callback, which happens exactly when every work callable submitted before
the call has completed (contract of wait_for_work_callbacks, section 6 of
the specification). Once `cancelled` has been set, `CancelAll` has already
signalled the done event, so the next poll leaves the loop. The first
component of the value is the return value (the negation of `cancelled`),
the second is the recorded cancelled bit. -/
def WorkManager.WaitAllLoop (test_cancel : Nat → Bool) :
    Nat → Nat → Bool → Bool × Bool
  | 0, _, cancelled => (!cancelled, cancelled)
  | remaining + 1, poll, cancelled =>
      if cancelled then (!cancelled, cancelled)
      else if test_cancel poll then
        WorkManager.WaitAllLoop test_cancel remaining (poll + 1) true
      else
        WorkManager.WaitAllLoop test_cancel remaining (poll + 1) false

/-- Translation of `WorkManager::WaitAll` (work.cpp): reset the done event,
submit the waiter, then run the polling loop starting with the cancelled
bit clear. `works_drained_at` is the poll index at which the waiter has
signalled the done event. -/
def WorkManager.WaitAll (works_drained_at : Nat) (test_cancel : Nat → Bool) : Bool :=
  (WorkManager.WaitAllLoop test_cancel works_drained_at 0 false).1

/-- The cancel predicate fires at one of the first `count` polls starting
at index `poll`. -/
def firedBefore (test_cancel : Nat → Bool) : Nat → Nat → Bool
  | 0, _ => false
  | count + 1, poll => test_cancel poll || firedBefore test_cancel count (poll + 1)

end work

/-- Translation of `BasicThreadPool::WaitWorks` (threadpool.hpp): delegate
to the work manager WaitAll with the pool cancel predicate. -/
def BasicThreadPool.WaitWorks (works_drained_at : Nat) (test_cancel : Nat → Bool) : Bool :=
  work.WorkManager.WaitAll works_drained_at test_cancel

end Ntp

/-! Helper lemmas about the ownership map. -/

namespace Ntp.details

theorem findCallback_eq_none_of_not_mem {α : Type} {callbacks : List (Nat × α)}
    {handle : Nat} (habs : handle ∉ callbacks.map Prod.fst) :
    findCallback callbacks handle = none := by
  induction callbacks with
  | nil => rfl
  | cons head rest ih =>
      simp only [List.map_cons, List.mem_cons, not_or] at habs
      simp only [findCallback]
      rw [if_neg (fun h => habs.1 h.symm), ih habs.2]

theorem findCallback_eraseCallback_self {α : Type} {callbacks : List (Nat × α)}
    {handle : Nat} (hnodup : (callbacks.map Prod.fst).Nodup) :
    findCallback (eraseCallback callbacks handle) handle = none := by
  induction callbacks with
  | nil => rfl
  | cons head rest ih =>
      simp only [List.map_cons, List.nodup_cons] at hnodup
      simp only [eraseCallback]
      by_cases hkey : head.1 = handle
      · rw [if_pos hkey]
        exact findCallback_eq_none_of_not_mem (hkey ▸ hnodup.1)
      · rw [if_neg hkey]
        simp only [findCallback]
        rw [if_neg hkey]
        exact ih hnodup.2

theorem findCallback_setCallbackWrapper_self {β : Type}
    (callbacks : List (Nat × ManagedContext β)) (handle : Nat)
    (wrapper : CallbackWrapper) :
    findCallback (setCallbackWrapper callbacks handle wrapper) handle =
      (findCallback callbacks handle).map
        fun context => { context with callback := wrapper } := by
  induction callbacks with
  | nil => rfl
  | cons head rest ih =>
      obtain ⟨key, context⟩ := head
      simp only [setCallbackWrapper]
      by_cases hkey : key = handle
      · rw [if_pos hkey]
        simp [findCallback, if_pos hkey]
      · rw [if_neg hkey]
        simp only [findCallback, if_neg hkey, ih]

theorem findCallback_setCallbackWrapper_other {β : Type}
    (callbacks : List (Nat × ManagedContext β)) (handle other : Nat)
    (wrapper : CallbackWrapper) (hne : other ≠ handle) :
    findCallback (setCallbackWrapper callbacks handle wrapper) other =
      findCallback callbacks other := by
  induction callbacks with
  | nil => rfl
  | cons head rest ih =>
      obtain ⟨key, context⟩ := head
      simp only [setCallbackWrapper]
      by_cases hkey : key = handle
      · rw [if_pos hkey]
        have hother : ¬(key = other) := fun h => hne (h.symm.trans hkey)
        simp only [findCallback, if_neg hother]
      · rw [if_neg hkey]
        simp only [findCallback, ih]

end Ntp.details

/-! Helper lemmas about the work-manager polling loop. -/

namespace Ntp.work

theorem WaitAllLoop_cancelled {test_cancel : Nat → Bool} :
    ∀ remaining poll, WorkManager.WaitAllLoop test_cancel remaining poll true = (false, true)
  | 0, _ => rfl
  | _ + 1, _ => by simp [WorkManager.WaitAllLoop]

theorem WaitAllLoop_eq_firedBefore {test_cancel : Nat → Bool} :
    ∀ remaining poll,
      WorkManager.WaitAllLoop test_cancel remaining poll false =
        (!(firedBefore test_cancel remaining poll), firedBefore test_cancel remaining poll)
  | 0, _ => rfl
  | remaining + 1, poll => by
      simp only [WorkManager.WaitAllLoop, firedBefore, Bool.false_eq_true, if_false]
      by_cases hfires : test_cancel poll = true
      · rw [if_pos hfires, WaitAllLoop_cancelled, hfires]
        simp
      · rw [if_neg hfires, WaitAllLoop_eq_firedBefore remaining (poll + 1)]
        simp only [Bool.not_eq_true] at hfires
        rw [hfires]
        simp

theorem firedBefore_iff (test_cancel : Nat → Bool) :
    ∀ count poll,
      firedBefore test_cancel count poll = true ↔
        ∃ offset < count, test_cancel (poll + offset) = true
  | 0, poll => by simp [firedBefore]
  | count + 1, poll => by
      simp only [firedBefore, Bool.or_eq_true]
      rw [firedBefore_iff test_cancel count (poll + 1)]
      constructor
      · rintro (hnow | ⟨offset, hlt, hfire⟩)
        · exact ⟨0, Nat.succ_pos count, by simpa using hnow⟩
        · exact ⟨offset + 1, by omega, by simpa [Nat.add_assoc, Nat.add_comm 1 offset] using hfire⟩
      · rintro ⟨offset, hlt, hfire⟩
        match offset with
        | 0 => exact Or.inl (by simpa using hfire)
        | offset + 1 =>
            exact Or.inr ⟨offset, by omega,
              by simpa [Nat.add_assoc, Nat.add_comm 1 offset] using hfire⟩

end Ntp.work

open Ntp Ntp.details Ntp.wait Ntp.timer Ntp.work Ntp.io

/-- C1: while a bulk cancel (CancelAll) is executing, the removal-permission
flag is held in the forbidden state; the completion-path Remove erases a
context slot from the ownership map if and only if the flag reads allowed,
so a trampoline running during the bulk iteration leaves the map unchanged
instead of removing its own slot; and when CancelAll returns the ownership
map is empty. Generic in the context type, hence valid for the Wait, Timer
and I/O managers alike. -/
theorem cancelAll_forbids_self_removal_and_empties_map {α : Type}
    (state : ManagerState α) (handle : Nat)
    (hnodup : (state.callbacks.map Prod.fst).Nodup)
    (hmem : findCallback state.callbacks handle ≠ none) :
    (Manager.CancelAllIterating state).can_remove = false ∧
    (findCallback (Manager.Remove state handle).callbacks handle = none ↔
      state.can_remove = true) ∧
    Manager.Remove (Manager.CancelAllIterating state) handle =
      Manager.CancelAllIterating state ∧
    (Manager.CancelAll state).callbacks = [] := by
  refine ⟨rfl, ?_, ?_, rfl⟩
  · constructor
    · intro hnone
      by_contra hflag
      have hkeep : Manager.Remove state handle = state := by
        unfold Manager.Remove
        rw [if_neg (by simpa using hflag)]
      rw [hkeep] at hnone
      exact hmem hnone
    · intro hflag
      unfold Manager.Remove
      rw [if_pos hflag]
      exact findCallback_eraseCallback_self hnodup
  · unfold Manager.Remove Manager.CancelAllIterating
    simp

/-- Witness for C1 at a concrete one-slot manager. -/
theorem cancelAll_forbids_self_removal_and_empties_map_witness :
    (Manager.CancelAllIterating (⟨[(1, 5)], true⟩ : ManagerState Nat)).can_remove = false ∧
    (findCallback (Manager.Remove (⟨[(1, 5)], true⟩ : ManagerState Nat) 1).callbacks 1 = none ↔
      (⟨[(1, 5)], true⟩ : ManagerState Nat).can_remove = true) ∧
    Manager.Remove (Manager.CancelAllIterating (⟨[(1, 5)], true⟩ : ManagerState Nat)) 1 =
      Manager.CancelAllIterating (⟨[(1, 5)], true⟩ : ManagerState Nat) ∧
    (Manager.CancelAll (⟨[(1, 5)], true⟩ : ManagerState Nat)).callbacks = [] :=
  cancelAll_forbids_self_removal_and_empties_map
    (⟨[(1, 5)], true⟩ : ManagerState Nat) 1 (by decide) (by decide)

/-- C2: the facade WaitWorks (work-manager WaitAll with the pool cancel
predicate) returns true exactly when the cancel predicate never fired at a
poll before the done event reported that every work callable submitted
before the call had completed; it returns false exactly when the predicate
fired at some poll while waiting, which is also exactly when CancelAll ran
and the cancelled bit was recorded. -/
theorem waitWorks_true_iff_drained_without_cancel
    (works_drained_at : Nat) (test_cancel : Nat → Bool) :
    (BasicThreadPool.WaitWorks works_drained_at test_cancel = true ↔
      ∀ poll < works_drained_at, test_cancel poll = false) ∧
    (BasicThreadPool.WaitWorks works_drained_at test_cancel = false ↔
      ∃ poll < works_drained_at, test_cancel poll = true) ∧
    (BasicThreadPool.WaitWorks works_drained_at test_cancel = false ↔
      (WorkManager.WaitAllLoop test_cancel works_drained_at 0 false).2 = true) := by
  have hloop := @WaitAllLoop_eq_firedBefore test_cancel works_drained_at 0
  have hchar := firedBefore_iff test_cancel works_drained_at 0
  simp only [Nat.zero_add] at hchar
  unfold BasicThreadPool.WaitWorks WorkManager.WaitAll
  rw [hloop]
  refine ⟨?_, ?_, ?_⟩
  · simp only [Bool.not_eq_true']
    constructor
    · intro hfired poll hlt
      by_contra hfire
      exact absurd (hchar.mpr ⟨poll, hlt, by simpa using hfire⟩) (by simp [hfired])
    · intro hall
      by_contra hfired
      obtain ⟨poll, hlt, hfire⟩ := hchar.mp (by simpa using hfired)
      exact absurd hfire (by simp [hall poll hlt])
  · simp only [Bool.not_eq_false']
    exact hchar
  · simp only [Bool.not_eq_false']

/-- C3: evaluation of the I/O invocation path at concrete inputs. For a
callable that accepts the completion datum but not the worker-instance
handle, the trampoline ends up applying the callable to the captured
arguments alone: the overlapped pointer, status code and bytes-transferred
values reported by the dispatcher (11, 22 and 33 here) never reach it. The
branch for callables that do accept the instance handle passes them
through. -/
theorem ioInvokeCallback_drops_datum_without_instance :
    IoManager.InvokeCallback false 0 11 22 33 [7] = [7] ∧
    IoManager.InvokeCallback true 9 11 22 33 [7] = [9, 11, 22, 33, 7] := by
  constructor <;> rfl

/-- C4: evaluation of the wait-timeout computation at a one-second timeout
(a cast count of 10000000 quanta, not the saturated maximum). The stored
FILETIME reads 4284967296 as a signed 64-bit count, because Negate only
negates the low 32-bit part, and 4284967296 is not the arithmetic negation
of 10000000; a timeout whose cast equals the saturated maximum is indeed
passed as an absent timeout. -/
theorem submitWait_timeout_not_negated_as_64bit :
    WaitManager.SubmitTimeout 10000000 =
      some { dwLowDateTime := 4284967296, dwHighDateTime := 0 } ∧
    FILETIME.asInt64 { dwLowDateTime := 4284967296, dwHighDateTime := 0 } = 4284967296 ∧
    (4284967296 : Int) ≠ -10000000 ∧
    WaitManager.SubmitTimeout max_native_duration = none := by
  refine ⟨?_, ?_, by decide, ?_⟩
  · rfl
  · rfl
  · rfl

/-- C5: for a wait id present in the ownership map, Replace returns the
same id, re-arms with the unchanged object parameters (the awaited handle
and the optional timeout), leaves the slot bound to a context with those
same object parameters and a fresh wrapper around the new callable and
arguments, leaves every other slot of the map untouched, and leaves the
removal-permission flag untouched. -/
theorem waitReplace_same_id_same_parameters_new_wrapper
    (state : ManagerState (ManagedContext WaitContext))
    (handle functor2 : Nat) (args2 : List Nat)
    (context : ManagedContext WaitContext)
    (hfound : findCallback state.callbacks handle = some context) :
    (WaitManager.Replace state handle functor2 args2).result = Except.ok handle ∧
    (WaitManager.Replace state handle functor2 args2).armed =
      some context.object_context ∧
    findCallback (WaitManager.Replace state handle functor2 args2).state.callbacks
        handle =
      some { object_context := context.object_context
             callback := { functor := functor2, arguments := args2 } } ∧
    (∀ other, other ≠ handle →
      findCallback (WaitManager.Replace state handle functor2 args2).state.callbacks
          other =
        findCallback state.callbacks other) ∧
    (WaitManager.Replace state handle functor2 args2).state.can_remove =
      state.can_remove := by
  unfold WaitManager.Replace ManagerEx.Replace
  rw [hfound]
  refine ⟨rfl, rfl, ?_, ?_, rfl⟩
  · rw [findCallback_setCallbackWrapper_self, hfound]
    rfl
  · intro other hne
    exact findCallback_setCallbackWrapper_other state.callbacks handle other _ hne

/-- Witness for C5 at a concrete one-slot wait manager. -/
theorem waitReplace_same_id_same_parameters_new_wrapper_witness :
    (WaitManager.Replace
        (⟨[(1, ⟨⟨none, 42⟩, ⟨6, [2]⟩⟩)], true⟩ :
          ManagerState (ManagedContext WaitContext)) 1 9 [3]).result = Except.ok 1 ∧
    (WaitManager.Replace
        (⟨[(1, ⟨⟨none, 42⟩, ⟨6, [2]⟩⟩)], true⟩ :
          ManagerState (ManagedContext WaitContext)) 1 9 [3]).armed =
      some (⟨⟨none, 42⟩, ⟨6, [2]⟩⟩ : ManagedContext WaitContext).object_context ∧
    findCallback
        (WaitManager.Replace
            (⟨[(1, ⟨⟨none, 42⟩, ⟨6, [2]⟩⟩)], true⟩ :
              ManagerState (ManagedContext WaitContext)) 1 9 [3]).state.callbacks 1 =
      some { object_context :=
               (⟨⟨none, 42⟩, ⟨6, [2]⟩⟩ : ManagedContext WaitContext).object_context
             callback := { functor := 9, arguments := [3] } } ∧
    (∀ other, other ≠ 1 →
      findCallback
          (WaitManager.Replace
              (⟨[(1, ⟨⟨none, 42⟩, ⟨6, [2]⟩⟩)], true⟩ :
                ManagerState (ManagedContext WaitContext)) 1 9 [3]).state.callbacks
          other =
        findCallback
          (⟨[(1, ⟨⟨none, 42⟩, ⟨6, [2]⟩⟩)], true⟩ :
            ManagerState (ManagedContext WaitContext)).callbacks other) ∧
    (WaitManager.Replace
        (⟨[(1, ⟨⟨none, 42⟩, ⟨6, [2]⟩⟩)], true⟩ :
          ManagerState (ManagedContext WaitContext)) 1 9 [3]).state.can_remove =
      (⟨[(1, ⟨⟨none, 42⟩, ⟨6, [2]⟩⟩)], true⟩ :
        ManagerState (ManagedContext WaitContext)).can_remove :=
  waitReplace_same_id_same_parameters_new_wrapper
    (⟨[(1, ⟨⟨none, 42⟩, ⟨6, [2]⟩⟩)], true⟩ : ManagerState (ManagedContext WaitContext))
    1 9 [3] (⟨⟨none, 42⟩, ⟨6, [2]⟩⟩ : ManagedContext WaitContext) rfl

/-- C6 (counterexample): cancelling an id that is not present in the
ownership map does not report NOT_FOUND; `Manager::Cancel` is noexcept and
silently does nothing for an unknown id. -/
theorem cancel_unknown_id_reports_no_error :
    (Manager.Cancel
        (⟨[], true⟩ : ManagerState (ManagedContext WaitContext)) 5).2 ≠
      some ERROR_NOT_FOUND := by
  simp [Manager.Cancel, findCallback]

/-- C6 (amended): for an id not present in the ownership map, replace fails
reporting NOT_FOUND and leaves the manager state unchanged, while cancel is
a silent no-op: it reports nothing and leaves the manager state
unchanged. -/
theorem replace_unknown_not_found_and_cancel_silent_noop
    (stateT : ManagerState (ManagedContext TimerContext))
    (stateW : ManagerState (ManagedContext WaitContext))
    (handle functor2 : Nat) (args2 : List Nat)
    (habsT : findCallback stateT.callbacks handle = none)
    (habsW : findCallback stateW.callbacks handle = none) :
    TimerManager.Replace stateT handle functor2 args2 =
      { state := stateT, result := Except.error ERROR_NOT_FOUND, armed := none } ∧
    Manager.Cancel stateW handle = (stateW, none) := by
  constructor
  · unfold TimerManager.Replace ManagerEx.Replace
    rw [habsT]
  · unfold Manager.Cancel
    rw [habsW]

/-- Witness for the amended C6 at concrete empty managers. -/
theorem replace_unknown_not_found_and_cancel_silent_noop_witness :
    TimerManager.Replace
        (⟨[], true⟩ : ManagerState (ManagedContext TimerContext)) 5 1 [] =
      { state := (⟨[], true⟩ : ManagerState (ManagedContext TimerContext))
        result := Except.error ERROR_NOT_FOUND
        armed := none } ∧
    Manager.Cancel (⟨[], true⟩ : ManagerState (ManagedContext WaitContext)) 5 =
      ((⟨[], true⟩ : ManagerState (ManagedContext WaitContext)), none) :=
  replace_unknown_not_found_and_cancel_silent_noop
    (⟨[], true⟩ : ManagerState (ManagedContext TimerContext))
    (⟨[], true⟩ : ManagerState (ManagedContext WaitContext)) 5 1 [] rfl rfl

/-- C7: aborting an I/O object cancels the pending I/O on the native handle
and then runs the normal close sequence (wait for callbacks, then close),
while the ordinary cancel runs only the close sequence without the prior
cancel call; both are no-ops on a null native handle. -/
theorem abortIo_cancels_then_closes_cancelIo_only_closes :
    ∀ handle : Nat,
      IoManager.AbortInternal (some handle) =
        IoCall.cancel_io :: IoManager.CloseInternal (some handle) ∧
      IoManager.CloseInternal (some handle) =
        [IoCall.wait_for_callbacks, IoCall.close_io] ∧
      IoManager.AbortInternal none = [] ∧
      IoManager.CloseInternal none = [] :=
  fun _ => ⟨rfl, rfl, rfl, rfl⟩

/-- C8: the custom pool traits normalize the requested thread counts to
min = max(min_requested, 1) and max = max(m, min) where m is max_requested
when it is at least the normalized minimum and the hardware default
otherwise. -/
theorem customThreadPoolTraits_thread_band
    (hardware_concurrency min_requested max_requested : Nat) :
    (CustomThreadPoolTraits hardware_concurrency min_requested max_requested).1 =
      max min_requested 1 ∧
    (CustomThreadPoolTraits hardware_concurrency min_requested max_requested).2 =
      max
        (if max min_requested 1 ≤ max_requested then max_requested
         else HardwareThreads hardware_concurrency)
        (max min_requested 1) := by
  dsimp only [CustomThreadPoolTraits]
  constructor
  · split_ifs <;> omega
  · split_ifs <;> omega

/-- C9: a deadline-timer submission whose deadline is at or before the
current steady-clock time computes a timeout of exactly zero before
delegating to the duration overload, and a future deadline computes exactly
deadline minus now. -/
theorem submitTimer_deadline_clamped
    (deadline now : Int) :
    (deadline ≤ now → TimerManager.SubmitDeadlineTimeout deadline now = 0) ∧
    (now ≤ deadline → TimerManager.SubmitDeadlineTimeout deadline now = deadline - now) := by
  dsimp only [TimerManager.SubmitDeadlineTimeout]
  constructor <;> intro h <;> split_ifs <;> omega

/-- Witness for C9 at a past and at a future deadline. -/
theorem submitTimer_deadline_clamped_witness :
    TimerManager.SubmitDeadlineTimeout 3 5 = 0 ∧
    TimerManager.SubmitDeadlineTimeout 9 5 = 9 - 5 :=
  ⟨(submitTimer_deadline_clamped 3 5).1 (by decide),
   (submitTimer_deadline_clamped 9 5).2 (by decide)⟩

/-- C10: for nonnegative durations in the representable range of the native
100-ns type, the conversion to the native count is order-preserving, the
native count read back as a duration differs from the original by less than
one 100-ns quantum (floor characterization: converted times den is at most
count times num, which is below converted plus one times den), and the
FILETIME packing of an in-range native count reads back unchanged. -/
theorem durationCast_order_preserving_within_one_quantum
    (num den count count2 native_count : Nat)
    (hden : 0 < den) (hle : count ≤ count2)
    (hrange : native_count < 18446744073709551616) :
    durationCastToNative num den count ≤ durationCastToNative num den count2 ∧
    durationCastToNative num den count * den ≤ count * num ∧
    count * num < (durationCastToNative num den count + 1) * den ∧
    (AsFiletime native_count).asUInt64 = native_count := by
  refine ⟨?_, ?_, ?_, ?_⟩
  · exact Nat.div_le_div_right (Nat.mul_le_mul_right num hle)
  · exact Nat.div_mul_le_self (count * num) den
  · dsimp only [durationCastToNative]
    calc count * num
        = den * (count * num / den) + count * num % den :=
          (Nat.div_add_mod (count * num) den).symm
      _ < den * (count * num / den) + den :=
          Nat.add_lt_add_left (Nat.mod_lt (count * num) hden) _
      _ = (count * num / den + 1) * den := by ring
  · dsimp only [AsFiletime, FILETIME.asUInt64]
    have hdivlt : native_count / 4294967296 < 4294967296 := by
      apply Nat.div_lt_of_lt_mul
      calc native_count < 18446744073709551616 := hrange
        _ = 4294967296 * 4294967296 := by norm_num
    rw [Nat.mod_eq_of_lt hdivlt, Nat.mul_comm]
    exact Nat.div_add_mod native_count 4294967296

/-- Witness for C10 with nanosecond ticks (one tick is 1/100 of a
quantum). -/
theorem durationCast_order_preserving_within_one_quantum_witness :
    durationCastToNative 1 100 150 ≤ durationCastToNative 1 100 250 ∧
    durationCastToNative 1 100 150 * 100 ≤ 150 * 1 ∧
    150 * 1 < (durationCastToNative 1 100 150 + 1) * 100 ∧
    (AsFiletime 12345678901).asUInt64 = 12345678901 :=
  durationCast_order_preserving_within_one_quantum 1 100 150 250 12345678901
    (by decide) (by decide) (by decide)
